import Mathlib

/-!
Verification of `nx_spatial/readwrite/nx_shp.py`: a shallow embedding of
`read_shp` and `write_shp` together with proofs about the spec's claims.

Modelling conventions:
* Coordinates are opaque scalar pairs only ever compared for equality and
  copied; they are embedded as `Int × Int` (the source stores floats but
  performs no arithmetic on them).
* Python dicts are embedded as insertion-ordered association lists with
  last-write-wins update (`dictSet`); only dict *content* (lookup) is used
  by the claims, never Python 2's hash-dependent iteration order, except
  where a single entry makes the order irrelevant.
* The geospatial library (OGR) is an external collaborator.  Its geometry
  objects are embedded structurally (`Geometry`); `ExportToWkb`/`Wkt`/`Json`
  are injective serializations, embedded as tagged values; and
  `CreateGeometryFromWkb`/`Wkt` invert them.
* The graph container (`networkx.DiGraph`) is an external collaborator not
  present in the repository.  Modelled from the spec: node identity is the
  coordinate tuple, edge identity the ordered (source, target) pair, and
  adding a node or edge that already exists fully replaces its attribute
  mapping (spec section 3 invariants, section 4.1, and the section 9
  "last write wins" note).
* Python exceptions are embedded as `Except` with a `PyErr` tag; the
  source's `raise ImportError` when OGR is missing realizes the spec's
  `UnavailableDependency` error.
* Filesystem access is embedded as an explicit access trace: each call to
  `ogr.Open` / `CreateDataSource` appends the path it touches.
-/

namespace NxShp

/-- A 2D coordinate `(x, y)`.  The source uses Python floats purely as keys
(equality tests and copies); `Int` components stand in for them. -/
abbrev Coord := Int × Int

/-- Python exceptions that the embedded code can raise. -/
inductive PyErr
  /-- `raise ImportError(...)` when `from osgeo import ogr` fails; this is the
  spec's `UnavailableDependency`. -/
  | importError
  /-- Attribute lookup on an object lacking it, e.g. `has_key` on a non-dict
  value or `GetLayerCount` on `None`. -/
  | attributeError
  /-- A library call applied to arguments of the wrong runtime type, e.g.
  `Geometry.SetPoint` given a tuple where a double is expected. -/
  | typeError
deriving DecidableEq, Repr

/-- OGR geometry objects, embedded structurally. -/
inductive Geometry
  /-- A point geometry with one 2D coordinate. -/
  | point (c : Coord)
  /-- A line-string geometry with its ordered vertex list. -/
  | lineString (pts : List Coord)
  /-- A polygon geometry (contents irrelevant to the code, which never reads
  them; the tag distinguishes distinct polygons). -/
  | polygon (tag : Nat)
  /-- Any further unsupported geometry type. -/
  | geomOther (tag : Nat)
deriving DecidableEq, Repr

/-- Attribute / field values: OGR field scalars plus the three geometry
serializations.  `wkbOf g` is the well-known-binary serialization of `g`,
and similarly for text and JSON; serialization is injective. -/
inductive Value
  /-- A null / absent field value. -/
  | null
  /-- A string value. -/
  | str (s : String)
  /-- A numeric value. -/
  | int (n : Int)
  /-- `g.ExportToWkb()`. -/
  | wkbOf (g : Geometry)
  /-- `g.ExportToWkt()`. -/
  | wktOf (g : Geometry)
  /-- `g.ExportToJson()`. -/
  | jsonOf (g : Geometry)
deriving DecidableEq, Repr

/-- A Python dict with `String` keys, as an insertion-ordered assoc list. -/
abbrev Attrs := List (String × Value)

/-- `k in d` / `d.has_key(k)`: whether the assoc list holds key `k`. -/
def hasKey {κ β : Type} [DecidableEq κ] (m : List (κ × β)) (k : κ) : Bool :=
  m.any (fun p => p.1 = k)

/-- `d[k]` as an `Option`: the value at the first occurrence of key `k`. -/
def lookupKey {κ β : Type} [DecidableEq κ] (m : List (κ × β)) (k : κ) : Option β :=
  (m.find? (fun p => p.1 = k)).map (·.2)

/-- `d[k] = v`: replace the value at key `k` in place, or append the pair if
the key is absent — Python dict assignment. -/
def setKey {κ β : Type} [DecidableEq κ] (m : List (κ × β)) (k : κ) (v : β) :
    List (κ × β) :=
  if hasKey m k then m.map (fun p => if p.1 = k then (k, v) else p)
  else m ++ [(k, v)]

/-- `dict(pairs)`: build a dict by inserting the pairs left to right
(duplicate keys: the last value wins). -/
def dictOfPairs (l : List (String × Value)) : Attrs :=
  l.foldl (fun m p => setKey m p.1 p.2) []

/-- The `networkx.DiGraph` container: nodes keyed by coordinate, directed
edges keyed by the ordered (source, target) pair, both carrying attribute
dicts.  Modelled from the spec (the library is not part of the repository):
re-adding an existing node or edge fully replaces its attributes. -/
structure Graph where
  /-- The nodes with their attribute dicts, in insertion order. -/
  nodeList : List (Coord × Attrs)
  /-- The directed edges with their attribute dicts, in insertion order. -/
  edgeList : List ((Coord × Coord) × Attrs)
deriving DecidableEq, Repr

/-- `nx.DiGraph()`: the empty directed graph. -/
def Graph.empty : Graph := ⟨[], []⟩

/-- `G.add_node(n, attrs)`.  Modelled from the spec: "If the coordinate
already exists as a node, its attributes are fully replaced (no merge)". -/
def Graph.add_node (G : Graph) (n : Coord) (attrs : Attrs) : Graph :=
  { G with nodeList := setKey G.nodeList n attrs }

/-- `G.add_edge(u, v, attrs)`.  Endpoints missing from the node set are
added with empty attributes; an existing edge's attributes are fully
replaced (spec: "If an edge with the same (source, target) pair already
exists, its attributes are fully replaced"). -/
def Graph.add_edge (G : Graph) (u v : Coord) (attrs : Attrs) : Graph :=
  let nl := if hasKey G.nodeList u then G.nodeList else G.nodeList ++ [(u, [])]
  let nl := if hasKey nl v then nl else nl ++ [(v, [])]
  { nodeList := nl, edgeList := setKey G.edgeList (u, v) attrs }

/-- The coordinates of a graph's nodes, in order. -/
def nodeKeys (G : Graph) : List Coord := G.nodeList.map (·.1)

/-- The (source, target) pairs of a graph's edges, in order. -/
def edgeKeys (G : Graph) : List (Coord × Coord) := G.edgeList.map (·.1)

/-- Append an element to a list unless it is already present. -/
def insertNew {κ : Type} [DecidableEq κ] (l : List κ) (k : κ) : List κ :=
  if k ∈ l then l else l ++ [k]

/-- One OGR feature: its field values and its geometry. -/
structure Feature where
  /-- The feature's stored field values, keyed by field name. -/
  fields : List (String × Value)
  /-- The feature's geometry object. -/
  geom : Geometry
deriving DecidableEq, Repr

/-- One OGR layer: its name, its field schema (ordered field names, from
`[x.GetName() for x in lyr.schema]`), and its features in index order. -/
structure Layer where
  /-- `lyr.GetName()`. -/
  name : String
  /-- The ordered field names of the layer's schema. -/
  schema : List String
  /-- The layer's features, indexed `0 .. GetFeatureCount() - 1`. -/
  features : List Feature
deriving DecidableEq, Repr

/-- An opened OGR data source: its layers in index order. -/
abbrev DataSource := List Layer

/-- OGR geometry type tags. -/
inductive GeomType
  /-- `ogr.wkbPoint`. -/
  | wkbPoint
  /-- `ogr.wkbLineString`. -/
  | wkbLineString
  /-- `ogr.wkbPolygon`. -/
  | wkbPolygon
  /-- Any further geometry type code. -/
  | wkbOtherType (tag : Nat)
deriving DecidableEq, Repr

/-- `g.GetGeometryType()`. -/
def Geometry.getGeometryType : Geometry → GeomType
  | .point _ => .wkbPoint
  | .lineString _ => .wkbLineString
  | .polygon _ => .wkbPolygon
  | .geomOther t => .wkbOtherType t

/-- `g.GetPointCount()`. -/
def Geometry.getPointCount : Geometry → Nat
  | .point _ => 1
  | .lineString pts => pts.length
  | _ => 0

/-- `g.GetPoint_2D(i)`.  The source only ever calls this with an in-range
index (0, or `GetPointCount() - 1` of a nonempty line); out-of-range
behaviour is undefined in OGR and the junk default is never relied on. -/
def Geometry.getPoint2D : Geometry → Nat → Coord
  | .point c, _ => c
  | .lineString pts, i => pts.getD i (0, 0)
  | _, _ => (0, 0)

/-- `g.ExportToWkb()`. -/
def exportToWkb (g : Geometry) : Value := .wkbOf g

/-- `g.ExportToWkt()`. -/
def exportToWkt (g : Geometry) : Value := .wktOf g

/-- `g.ExportToJson()`. -/
def exportToJson (g : Geometry) : Value := .jsonOf g

/-- `ogr.CreateGeometryFromWkb(v)`: inverts `ExportToWkb`; any other value
is a malformed encoding and the library rejects it. -/
def createGeometryFromWkb : Value → Except PyErr Geometry
  | .wkbOf g => .ok g
  | _ => .error .typeError

/-- `ogr.CreateGeometryFromWkt(v)`: inverts `ExportToWkt`. -/
def createGeometryFromWkt : Value → Except PyErr Geometry
  | .wktOf g => .ok g
  | _ => .error .typeError

/-- `f.GetField(f.GetFieldIndex(x))`: the feature's value for field `x`.
Per spec section 4.1, a schema field absent on a feature yields a
null value rather than an error. -/
def getField (f : Feature) (x : String) : Value :=
  (lookupKey f.fields x).getD .null

/-- `getfieldinfo(lyr, feature, flds)`: the feature's values for the schema
fields, in schema order. -/
def getfieldinfo (f : Feature) (flds : List String) : List Value :=
  flds.map (getField f)

/-- The attribute dict built for every feature before the geometry dispatch:
`attributes = dict(zip(fields, flddata)); attributes["ShpName"] = lyr.GetName()`. -/
def featureBaseAttrs (lyrName : String) (flds : List String) (f : Feature) : Attrs :=
  setKey (dictOfPairs (flds.zip (getfieldinfo f flds))) "ShpName" (.str lyrName)

/-- The body of `addlyr` for a single feature of `read_shp`: build the
attribute dict, then dispatch on the geometry type — a point adds a node
keyed by its coordinate; a line string stores the three geometry encodings
and adds one edge from its first to its last vertex; anything else falls
through both `if`s and leaves the graph unchanged (and raises nothing). -/
def addFeature (net : Graph) (lyrName : String) (flds : List String)
    (f : Feature) : Graph :=
  let attributes := featureBaseAttrs lyrName flds f
  let net1 := if f.geom.getGeometryType = .wkbPoint
    then net.add_node (f.geom.getPoint2D 0) attributes
    else net
  if f.geom.getGeometryType = .wkbLineString then
    let attributes := setKey attributes "Wkb" (exportToWkb f.geom)
    let attributes := setKey attributes "Wkt" (exportToWkt f.geom)
    let attributes := setKey attributes "Json" (exportToJson f.geom)
    let last := f.geom.getPointCount - 1
    net1.add_edge (f.geom.getPoint2D 0) (f.geom.getPoint2D last) attributes
  else net1

/-- `addlyr(lyr, flds)`: fold the per-feature step over the layer's
features in index order. -/
def addlyr (net : Graph) (lyr : Layer) : Graph :=
  lyr.features.foldl (fun n f => addFeature n lyr.name lyr.schema f) net

/-- The `path` argument of `read_shp`.  Its docstring advertises "File,
directory, or filename", but the body only acts when
`isinstance(path, str)` holds; a file object or any other object is
represented by a tag. -/
inductive PathArg
  /-- A Python `str` path. -/
  | pathStr (s : String)
  /-- An open file object (tag distinguishes instances). -/
  | fileObj (id : Nat)
  /-- Any other non-string argument. -/
  | otherObj (id : Nat)
deriving DecidableEq, Repr

/-- `isinstance(path, str)`. -/
def PathArg.isStr : PathArg → Bool
  | .pathStr _ => true
  | _ => false

/-- The filesystem as seen through `ogr.Open`: paths that open successfully
mapped to their data sources.  `ogr.Open` on any other path returns `None`. -/
abbrev FileSystem := List (String × DataSource)

/-- Outcome of `read_shp`: the returned graph or the raised exception,
together with the trace of filesystem paths accessed. -/
structure ReadOutcome where
  /-- The returned graph, or the exception raised. -/
  result : Except PyErr Graph
  /-- The filesystem paths opened, in order. -/
  accesses : List String

/-- `read_shp(path)`.  The conditional OGR import is the first statement:
when the library is unavailable an `ImportError` (the spec's
`UnavailableDependency`) is raised before anything else.  A non-string
`path` skips the whole `isinstance` block and returns the empty graph
untouched.  A string path is opened; `ogr.Open` yields `None` for an
unopenable path and the subsequent `GetLayerCount` raises
`AttributeError`.  Otherwise every layer is folded into the graph. -/
def read_shp (ogrAvailable : Bool) (fs : FileSystem) (path : PathArg) :
    ReadOutcome :=
  if ogrAvailable then
    match path with
    | .pathStr s =>
      match lookupKey fs s with
      | some shp => ⟨.ok (shp.foldl addlyr Graph.empty), [s]⟩
      | none => ⟨.error .attributeError, [s]⟩
    | _ => ⟨.ok Graph.empty, []⟩
  else ⟨.error .importError, []⟩

/-- The `data` argument actually handed to `netgeometry` for a node:
`data = G.node[n].values() or [{}]` followed by `data[0]`.  With no
attributes this is the empty dict; otherwise it is the *first attribute
value*, not the mapping. -/
inductive DataArg
  /-- An attribute dict. -/
  | dict (m : Attrs)
  /-- A bare attribute value (not a dict). -/
  | scalarVal (v : Value)
deriving DecidableEq, Repr

/-- `G.node[n].values() or [{}]` then `[0]`: the empty dict when the node
has no attributes, else the first stored attribute value.  (Python 2
`values()` order is hash-dependent; the claims only use this where a
single attribute makes the choice unambiguous.) -/
def nodeDataArg (attrs : Attrs) : DataArg :=
  match attrs.map (·.2) with
  | [] => .dict []
  | v :: _ => .scalarVal v

/-- The `key` argument of `netgeometry`: a node's coordinate or an edge's
(source, target) pair. -/
inductive Key
  /-- A node key: one coordinate tuple. -/
  | nodeKey (c : Coord)
  /-- An edge key: the (source, target) pair of coordinate tuples. -/
  | edgeKey (s t : Coord)
deriving DecidableEq, Repr

/-- The guard `type(key[0]) == 'tuple'` of `netgeometry`: it compares the
runtime *type object* of `key[0]` (the type `tuple` for an edge key, a
numeric type for a node key) with the string literal `'tuple'`.  A type
object never equals a string, so the comparison is `False` for every key. -/
def keyTypeLabelTest : Key → Bool
  | .nodeKey _ => false
  | .edgeKey _ _ => false

/-- The final `else` branch of `netgeometry`:
`geom = ogr.Geometry(ogr.wkbPoint); geom.SetPoint(0, *key)`.  For a node
key the splat passes the two scalar coordinates and builds that point.
For an edge key it passes the two coordinate *tuples* where `SetPoint`
expects doubles, and the library binding rejects the call with a
`TypeError`. -/
def setPointFromKey : Key → Except PyErr Geometry
  | .nodeKey c => .ok (.point c)
  | .edgeKey _ _ => .error .typeError

/-- `netgeometry(key, data)` of `write_shp`.  `data.has_key(...)` raises
`AttributeError` unless `data` is a dict; stored `Wkb`/`Wkt` encodings are
deserialized; the line-string branch sits behind the always-false type
label guard; everything else reaches the point branch. -/
def netgeometry (key : Key) (data : DataArg) : Except PyErr Geometry :=
  match data with
  | .scalarVal _ => .error .attributeError
  | .dict m =>
    if hasKey m "Wkb" then createGeometryFromWkb ((lookupKey m "Wkb").getD .null)
    else if hasKey m "Wkt" then createGeometryFromWkt ((lookupKey m "Wkt").getD .null)
    else if keyTypeLabelTest key then
      match key with
      | .edgeKey s t => .ok (.lineString [s, t])
      | .nodeKey _ => .error .typeError
    else setPointFromKey key

/-- The nodes loop of `write_shp`: for each node, select its data via
`values() or [{}]` / `[0]`, derive a geometry, and create a feature in the
"nodes" layer; the first raised exception aborts the loop. -/
def processNodes : List (Coord × Attrs) → Except PyErr (List Geometry)
  | [] => .ok []
  | (n, attrs) :: rest => do
    let g ← netgeometry (.nodeKey n) (nodeDataArg attrs)
    let gs ← processNodes rest
    pure (g :: gs)

/-- The edges loop of `write_shp`: for each edge, `G.get_edge_data(*e)`
yields its attribute dict, a geometry is derived, and a feature is created
in the "edges" layer. -/
def processEdges : List ((Coord × Coord) × Attrs) → Except PyErr (List Geometry)
  | [] => .ok []
  | ((u, v), attrs) :: rest => do
    let g ← netgeometry (.edgeKey u v) (.dict attrs)
    let gs ← processEdges rest
    pure (g :: gs)

/-- What `write_shp` writes on success: the feature geometries of the
"nodes" layer and of the "edges" layer, in creation order. -/
structure WriteOutput where
  /-- Features created in the point layer "nodes". -/
  nodeFeatures : List Geometry
  /-- Features created in the line-string layer "edges". -/
  edgeFeatures : List Geometry

/-- Outcome of `write_shp`: the graph object as it stands when the call
returns or raises, the written output or exception, and the filesystem
access trace (`CreateDataSource(outdir)`). -/
structure WriteOutcome where
  /-- The argument graph when the call ends; the source only ever reads
  `G` (`for n in G`, `G.node[n].values()`, `G.edges()`, `G.get_edge_data`),
  so the embedding threads it through unchanged. -/
  graphAfter : Graph
  /-- The written layers, or the exception raised. -/
  result : Except PyErr WriteOutput
  /-- The filesystem paths touched, in order. -/
  accesses : List String

/-- `write_shp(G, outdir)`.  The conditional OGR import is again the first
statement; then the data source is created at `outdir` and the node and
edge loops run in that order. -/
def write_shp (ogrAvailable : Bool) (G : Graph) (outdir : String) :
    WriteOutcome :=
  if ogrAvailable then
    match processNodes G.nodeList with
    | .error e => ⟨G, .error e, [outdir]⟩
    | .ok nf =>
      match processEdges G.edgeList with
      | .error e => ⟨G, .error e, [outdir]⟩
      | .ok ef => ⟨G, .ok ⟨nf, ef⟩, [outdir]⟩
  else ⟨G, .error .importError, []⟩

/-- The attribute mapping claim C7 ascribes to every feature: one entry per
schema field holding that feature's value for it, read in schema order,
plus the synthetic layer-name attribute. -/
def claimedFeatureAttrs (lyrName : String) (flds : List String) (f : Feature) :
    Attrs :=
  (flds.map fun x => (x, getField f x)) ++ [("ShpName", .str lyrName)]

/-! ### Helper lemmas about the dict and graph embedding -/

theorem hasKey_iff_mem {κ β : Type} [DecidableEq κ] (m : List (κ × β)) (k : κ) :
    hasKey m k = true ↔ k ∈ m.map (·.1) := by
  simp [hasKey, List.any_eq_true, List.mem_map]

theorem hasKey_eq_false_iff {κ β : Type} [DecidableEq κ] (m : List (κ × β))
    (k : κ) : hasKey m k = false ↔ k ∉ m.map (·.1) := by
  rw [← hasKey_iff_mem]
  cases h : hasKey m k <;> simp

theorem hasKey_append {κ β : Type} [DecidableEq κ] (l1 l2 : List (κ × β))
    (k : κ) : hasKey (l1 ++ l2) k = (hasKey l1 k || hasKey l2 k) := by
  simp [hasKey]

theorem setKey_of_not_hasKey {κ β : Type} [DecidableEq κ] (m : List (κ × β))
    (k : κ) (v : β) (h : hasKey m k = false) : setKey m k v = m ++ [(k, v)] := by
  simp [setKey, h]

theorem lookupKey_map_replace {κ β : Type} [DecidableEq κ] (m : List (κ × β))
    (k : κ) (v : β) (h : hasKey m k = true) :
    lookupKey (m.map (fun p => if p.1 = k then (k, v) else p)) k = some v := by
  induction m with
  | nil => simp [hasKey] at h
  | cons p rest ih =>
    by_cases hp : p.1 = k
    · simp [lookupKey, List.find?, hp]
    · have h' : hasKey rest k = true := by
        simpa [hasKey, List.any_cons, hp] using h
      simpa [lookupKey, List.find?, hp] using ih h'

theorem lookupKey_append_of_not_hasKey {κ β : Type} [DecidableEq κ]
    (m l2 : List (κ × β)) (k : κ) (h : hasKey m k = false) :
    lookupKey (m ++ l2) k = lookupKey l2 k := by
  induction m with
  | nil => rfl
  | cons p rest ih =>
    have h1 : ¬ p.1 = k := by
      intro hk
      simp [hasKey, List.any_cons, hk] at h
    have h2 : hasKey rest k = false := by
      simp [hasKey, List.any_cons, h1] at h ⊢
      exact h
    rw [List.cons_append]
    simpa [lookupKey, List.find?, h1] using ih h2

theorem lookupKey_setKey_self {κ β : Type} [DecidableEq κ] (m : List (κ × β))
    (k : κ) (v : β) : lookupKey (setKey m k v) k = some v := by
  by_cases h : hasKey m k
  · rw [setKey, if_pos h]
    exact lookupKey_map_replace m k v h
  · have h' : hasKey m k = false := by simpa using h
    rw [setKey_of_not_hasKey m k v h', lookupKey_append_of_not_hasKey m _ k h']
    simp [lookupKey, List.find?]

theorem map_fst_setKey {κ β : Type} [DecidableEq κ] (m : List (κ × β)) (k : κ)
    (v : β) : (setKey m k v).map (·.1) = insertNew (m.map (·.1)) k := by
  by_cases h : hasKey m k
  · rw [setKey, if_pos h, insertNew, if_pos ((hasKey_iff_mem m k).1 h),
      List.map_map]
    exact List.map_congr_left (fun p _ => by by_cases hp : p.1 = k <;> simp [hp])
  · have h' : hasKey m k = false := by simpa using h
    rw [setKey_of_not_hasKey m k v h', insertNew,
      if_neg ((hasKey_eq_false_iff m k).1 h')]
    simp

theorem insert_node_map_fst {κ β : Type} [DecidableEq κ] (m : List (κ × β))
    (u : κ) (e : β) :
    ((if hasKey m u then m else m ++ [(u, e)]).map (·.1))
      = insertNew (m.map (·.1)) u := by
  by_cases h : hasKey m u
  · rw [if_pos h, insertNew, if_pos ((hasKey_iff_mem m u).1 h)]
  · have h' : hasKey m u = false := by simpa using h
    rw [if_neg h, insertNew, if_neg ((hasKey_eq_false_iff m u).1 h')]
    simp

theorem edgeKeys_add_edge (G : Graph) (u v : Coord) (a : Attrs) :
    edgeKeys (G.add_edge u v a) = insertNew (edgeKeys G) (u, v) := by
  simp only [Graph.add_edge, edgeKeys]
  exact map_fst_setKey G.edgeList (u, v) a

theorem nodeKeys_add_edge (G : Graph) (u v : Coord) (a : Attrs) :
    nodeKeys (G.add_edge u v a) = insertNew (insertNew (nodeKeys G) u) v := by
  simp only [Graph.add_edge, nodeKeys]
  rw [insert_node_map_fst _ v ([] : Attrs), insert_node_map_fst G.nodeList u ([] : Attrs)]

/-- `addFeature` on a point feature: the graph gains (or overwrites) the
node keyed by the point's coordinate, carrying the base attributes. -/
theorem addFeature_point (net : Graph) (lyrName : String) (flds : List String)
    (fv : List (String × Value)) (c : Coord) :
    addFeature net lyrName flds ⟨fv, .point c⟩
      = net.add_node c (featureBaseAttrs lyrName flds ⟨fv, .point c⟩) := rfl

/-- `addFeature` on a line-string feature: one edge from the first to the
last vertex, carrying the base attributes plus the three geometry
encodings. -/
theorem addFeature_lineString (net : Graph) (lyrName : String)
    (flds : List String) (fv : List (String × Value)) (pts : List Coord) :
    addFeature net lyrName flds ⟨fv, .lineString pts⟩
      = net.add_edge (pts.getD 0 (0, 0)) (pts.getD (pts.length - 1) (0, 0))
          (setKey (setKey (setKey
              (featureBaseAttrs lyrName flds ⟨fv, .lineString pts⟩)
              "Wkb" (exportToWkb (.lineString pts)))
              "Wkt" (exportToWkt (.lineString pts)))
              "Json" (exportToJson (.lineString pts))) := rfl

theorem zip_self_map {α β : Type} (l : List α) (g : α → β) :
    l.zip (l.map g) = l.map (fun x => (x, g x)) := by
  induction l with
  | nil => rfl
  | cons a rest ih => simp [ih]

theorem map_fst_pairing {α β : Type} (l : List α) (g : α → β) :
    (l.map (fun x => (x, g x))).map (·.1) = l := by
  induction l with
  | nil => rfl
  | cons a rest ih => simp [ih]

theorem foldl_setKey_fresh {κ β : Type} [DecidableEq κ]
    (l : List (κ × β)) (m : List (κ × β))
    (hdisj : ∀ p ∈ l, hasKey m p.1 = false) (hnd : (l.map (·.1)).Nodup) :
    l.foldl (fun d p => setKey d p.1 p.2) m = m ++ l := by
  induction l generalizing m with
  | nil => simp
  | cons p rest ih =>
    simp only [List.map_cons, List.nodup_cons] at hnd
    rw [List.foldl_cons,
      setKey_of_not_hasKey m p.1 p.2 (hdisj p (List.mem_cons_self p rest)),
      ih (m ++ [(p.1, p.2)]) ?_ hnd.2]
    · simp
    · intro q hq
      have hqm : hasKey m q.1 = false := hdisj q (List.mem_cons_of_mem p hq)
      have hqp : ¬ q.1 = p.1 := by
        intro he
        exact hnd.1 (he ▸ List.mem_map.mpr ⟨q, hq, rfl⟩)
      have hpq : ¬ p.1 = q.1 := fun he => hqp he.symm
      rw [hasKey_append, hqm]
      simp [hasKey, hpq]

theorem dictOfPairs_nodup (l : List (String × Value))
    (hnd : (l.map (·.1)).Nodup) : dictOfPairs l = l := by
  have h := foldl_setKey_fresh l [] (fun p _ => rfl) hnd
  simpa [dictOfPairs] using h

/-- With distinct schema field names none of which is `"ShpName"`, the
base attribute dict is the schema fields with their values in order,
followed by the synthetic layer-name entry. -/
theorem featureBaseAttrs_eq_claimed (lyrName : String) (flds : List String)
    (f : Feature) (hnd : flds.Nodup) (h1 : "ShpName" ∉ flds) :
    featureBaseAttrs lyrName flds f = claimedFeatureAttrs lyrName flds f := by
  have hk : (flds.map (fun x => (x, getField f x))).map (·.1) = flds :=
    map_fst_pairing flds _
  unfold featureBaseAttrs claimedFeatureAttrs getfieldinfo
  rw [zip_self_map, dictOfPairs_nodup _ (by rw [hk]; exact hnd),
    setKey_of_not_hasKey _ _ _ ((hasKey_eq_false_iff _ _).2 (by rw [hk]; exact h1))]

theorem map_fst_claimed (lyrName : String) (flds : List String) (f : Feature) :
    (claimedFeatureAttrs lyrName flds f).map (·.1) = flds ++ ["ShpName"] := by
  rw [claimedFeatureAttrs, List.map_append, map_fst_pairing]
  rfl

/-- C2: for every input, calling `read_shp` or `write_shp` when the
geospatial library cannot be imported raises the `UnavailableDependency`
error (`ImportError` in the source) before any filesystem access — the
access trace is empty and the argument graph is untouched. -/
theorem missing_ogr_raises_before_fs_access (fs : FileSystem) (path : PathArg)
    (G : Graph) (outdir : String) :
    read_shp false fs path = ⟨.error .importError, []⟩ ∧
    write_shp false G outdir = ⟨G, .error .importError, []⟩ :=
  ⟨rfl, rfl⟩

/-- C8: `write_shp` never mutates its argument graph — whether it returns
normally or raises, the graph when the call ends equals the graph passed
in.  The source only reads `G` (`for n in G`, `G.node[n].values()`,
`G.edges()`, `G.get_edge_data`), which the embedding mirrors by threading
the graph through every branch. -/
theorem write_shp_never_mutates_graph (avail : Bool) (G : Graph)
    (outdir : String) :
    (write_shp avail G outdir).graphAfter = G := by
  cases avail with
  | false => rfl
  | true =>
    unfold write_shp
    cases hn : processNodes G.nodeList with
    | error e => simp [hn]
    | ok nf =>
      cases he : processEdges G.edgeList with
      | error e => simp [hn, he]
      | ok ef => simp [hn, he]

/-- C1 (code bug): an edge whose attributes hold neither `Wkb` nor `Wkt` is
claimed to come out as the two-vertex line string of its endpoints, but the
guard `type(key[0]) == 'tuple'` is always false, so the edge key
`((0,0),(1,1))` falls into the point branch, where `SetPoint` receives
coordinate tuples instead of scalars and the call fails with a
`TypeError`; no line-string feature is produced. -/
theorem write_shp_edge_geometry_fallback_bug :
    keyTypeLabelTest (.edgeKey (0, 0) (1, 1)) = false ∧
    netgeometry (.edgeKey (0, 0) (1, 1)) (.dict []) = .error .typeError ∧
    write_shp true ⟨[((0, 0), []), ((1, 1), [])], [(((0, 0), (1, 1)), [])]⟩ "out"
      = ⟨⟨[((0, 0), []), ((1, 1), [])], [(((0, 0), (1, 1)), [])]⟩,
         .error .typeError, ["out"]⟩ :=
  ⟨rfl, rfl, rfl⟩

/-- C4 (code bug): the claim says the writer derives each node's geometry
from the node's attribute mapping, but `data = G.node[n].values() or [{}]`
followed by `data[0]` selects the first attribute *value*.  For the node
`(5,7)` with mapping `{"ShpName": "roads"}` the string `"roads"` is handed
to `netgeometry`, whose `has_key` call raises `AttributeError` instead of
synthesizing the point `(5,7)`. -/
theorem write_shp_node_attrs_value_bug :
    nodeDataArg [("ShpName", .str "roads")] = .scalarVal (.str "roads") ∧
    write_shp true ⟨[((5, 7), [("ShpName", .str "roads")])], []⟩ "out"
      = ⟨⟨[((5, 7), [("ShpName", .str "roads")])], []⟩,
         .error .attributeError, ["out"]⟩ :=
  ⟨rfl, rfl⟩

/-- C9 (code bug): the claimed write/read round trip cannot hold — reading
any point feature attaches the synthetic `ShpName` attribute, and writing
the resulting graph raises `AttributeError` at the very first node (the
writer passes the attribute value `"pts"` where `netgeometry` expects the
mapping), so `read_shp (write_shp G)` never completes, let alone
reproduces `G`. -/
theorem write_shp_breaks_roundtrip :
    (read_shp true [("indir", [⟨"pts", [], [⟨[], .point (2, 3)⟩]⟩])]
        (.pathStr "indir")).result
      = .ok ⟨[((2, 3), [("ShpName", .str "pts")])], []⟩ ∧
    write_shp true ⟨[((2, 3), [("ShpName", .str "pts")])], []⟩ "outdir"
      = ⟨⟨[((2, 3), [("ShpName", .str "pts")])], []⟩,
         .error .attributeError, ["outdir"]⟩ :=
  ⟨rfl, rfl⟩

/-- C10: a non-string `path` argument (e.g. an open file object) makes
`read_shp` skip the `isinstance(path, str)` block entirely: it returns the
empty directed graph, raises nothing, and performs no filesystem access —
despite the docstring advertising file arguments. -/
theorem read_shp_nonstring_empty_graph (fs : FileSystem) (p : PathArg)
    (h : p.isStr = false) :
    read_shp true fs p = ⟨.ok Graph.empty, []⟩ := by
  cases p with
  | pathStr s => simp [PathArg.isStr] at h
  | fileObj id => rfl
  | otherObj id => rfl

/-- C3: a line-string feature adds exactly one directed edge, from its
first vertex to its last vertex; intermediate vertices contribute no
nodes and no edges (the only node keys added are the two endpoints,
created by `add_edge`). -/
theorem read_shp_line_feature_single_edge (net : Graph) (lyrName : String)
    (flds : List String) (fv : List (String × Value)) (pts : List Coord)
    (h : pts ≠ []) :
    edgeKeys (addFeature net lyrName flds ⟨fv, .lineString pts⟩)
      = insertNew (edgeKeys net) (pts.head h, pts.getLast h) ∧
    nodeKeys (addFeature net lyrName flds ⟨fv, .lineString pts⟩)
      = insertNew (insertNew (nodeKeys net) (pts.head h)) (pts.getLast h) := by
  have h0 : pts.getD 0 (0, 0) = pts.head h := by
    cases pts with
    | nil => exact absurd rfl h
    | cons a t => rfl
  have hl : pts.getD (pts.length - 1) (0, 0) = pts.getLast h := by
    rw [List.getD_eq_getElem pts (0, 0) (by have := List.length_pos.mpr h; omega),
      List.getLast_eq_getElem]
  rw [addFeature_lineString, h0, hl, edgeKeys_add_edge, nodeKeys_add_edge]
  exact ⟨rfl, rfl⟩

/-- Witness for C3: the spec's own example, the line `[(0,0),(1,1),(2,2)]`
read into an empty graph, yields the single edge `(0,0) → (2,2)` and only
the two endpoint nodes. -/
theorem read_shp_line_feature_single_edge_witness :
    edgeKeys (addFeature Graph.empty "roads" []
        ⟨[], .lineString [(0, 0), (1, 1), (2, 2)]⟩) = [((0, 0), (2, 2))] ∧
    nodeKeys (addFeature Graph.empty "roads" []
        ⟨[], .lineString [(0, 0), (1, 1), (2, 2)]⟩) = [(0, 0), (2, 2)] := by
  obtain ⟨h1, h2⟩ := read_shp_line_feature_single_edge Graph.empty "roads" [] []
    [(0, 0), (1, 1), (2, 2)] (by decide)
  refine ⟨?_, ?_⟩
  · rw [h1]; decide
  · rw [h2]; decide

/-- C5 (graph container modelled from the spec): reading a shapefile whose
layer holds two point features at the same coordinate yields exactly one
node at that coordinate, and its attribute mapping is exactly the one
built for the last such feature — the first feature's attributes are fully
replaced, regardless of what they were. -/
theorem read_shp_same_coord_last_feature_wins (lyrName : String)
    (flds : List String) (fv1 fv2 : List (String × Value)) (c : Coord) :
    (read_shp true [("p", [⟨lyrName, flds,
        [⟨fv1, .point c⟩, ⟨fv2, .point c⟩]⟩])] (.pathStr "p")).result
      = .ok ⟨[(c, featureBaseAttrs lyrName flds ⟨fv2, .point c⟩)], []⟩ := by
  simp [read_shp, lookupKey, addlyr, addFeature_point, Graph.add_node,
    Graph.empty, setKey, hasKey]

/-- C6: a feature whose geometry is neither a point nor a line string (a
polygon, say) adds no node and no edge and raises nothing — the layer
fold with and without it produces the same graph.  (`addFeature` is total:
the skipped feature cannot raise.) -/
theorem read_shp_unsupported_geometry_skipped (net : Graph) (lyrName : String)
    (flds : List String) (fv : List (String × Value)) (g : Geometry)
    (hp : g.getGeometryType ≠ .wkbPoint)
    (hl : g.getGeometryType ≠ .wkbLineString)
    (fs1 fs2 : List Feature) :
    addlyr net ⟨lyrName, flds, fs1 ++ ⟨fv, g⟩ :: fs2⟩
      = addlyr net ⟨lyrName, flds, fs1 ++ fs2⟩ := by
  have hskip : ∀ n : Graph, addFeature n lyrName flds ⟨fv, g⟩ = n := by
    intro n
    simp [addFeature, hp, hl]
  simp [addlyr, List.foldl_append, hskip]

/-- Witness for C6: a polygon feature between two point features is
skipped. -/
theorem read_shp_unsupported_geometry_skipped_witness :
    (Geometry.polygon 0).getGeometryType ≠ GeomType.wkbPoint ∧
    (Geometry.polygon 0).getGeometryType ≠ GeomType.wkbLineString ∧
    addlyr Graph.empty ⟨"L", [], [⟨[], .polygon 0⟩, ⟨[], .point (1, 1)⟩]⟩
      = addlyr Graph.empty ⟨"L", [], [⟨[], .point (1, 1)⟩]⟩ :=
  ⟨by decide, by decide,
    read_shp_unsupported_geometry_skipped Graph.empty "L" [] [] (.polygon 0)
      (by decide) (by decide) [] [⟨[], .point (1, 1)⟩]⟩

/-- C7 (counterexample): a shapefile layer "L" whose schema declares a
field literally named `"ShpName"` (a legal shapefile field name).  The
feature's value for it, 42, is overwritten by the synthetic layer-name
attribute: the resulting node carries the single entry
`{"ShpName": "L"}`, not one entry per schema field plus a synthetic
attribute as the claim states. -/
theorem read_shp_shpname_field_collision :
    (addlyr Graph.empty ⟨"L", ["ShpName"],
        [⟨[("ShpName", .int 42)], .point (0, 0)⟩]⟩).nodeList
      = [((0, 0), [("ShpName", .str "L")])] ∧
    featureBaseAttrs "L" ["ShpName"] ⟨[("ShpName", .int 42)], .point (0, 0)⟩
      ≠ claimedFeatureAttrs "L" ["ShpName"] ⟨[("ShpName", .int 42)], .point (0, 0)⟩ := by
  exact ⟨rfl, by decide⟩

/-- C7 (amended): provided the layer's schema field names are distinct and
none of them is `"ShpName"` (nor `"Wkb"`, `"Wkt"`, `"Json"`), the
attribute mapping attached to the node or edge produced for a feature is
exactly one entry per schema field, keyed by field name with the feature's
value read in schema order, plus the synthetic layer-name attribute; for a
line feature additionally the three geometry-encoding attributes. -/
theorem read_shp_feature_attrs_amended (net : Graph) (lyrName : String)
    (flds : List String) (fv : List (String × Value))
    (hnd : flds.Nodup) (h1 : "ShpName" ∉ flds) (h2 : "Wkb" ∉ flds)
    (h3 : "Wkt" ∉ flds) (h4 : "Json" ∉ flds) :
    (∀ c : Coord,
      lookupKey (addFeature net lyrName flds ⟨fv, .point c⟩).nodeList c
        = some (claimedFeatureAttrs lyrName flds ⟨fv, .point c⟩)) ∧
    (∀ pts : List Coord,
      lookupKey (addFeature net lyrName flds ⟨fv, .lineString pts⟩).edgeList
          (pts.getD 0 (0, 0), pts.getD (pts.length - 1) (0, 0))
        = some (claimedFeatureAttrs lyrName flds ⟨fv, .lineString pts⟩
            ++ [("Wkb", exportToWkb (.lineString pts)),
                ("Wkt", exportToWkt (.lineString pts)),
                ("Json", exportToJson (.lineString pts))])) := by
  constructor
  · intro c
    rw [addFeature_point, Graph.add_node, lookupKey_setKey_self,
      featureBaseAttrs_eq_claimed lyrName flds _ hnd h1]
  · intro pts
    rw [addFeature_lineString, Graph.add_edge]
    show lookupKey (setKey net.edgeList _ _) _ = _
    rw [lookupKey_setKey_self]
    congr 1
    rw [featureBaseAttrs_eq_claimed lyrName flds _ hnd h1]
    have hwb : hasKey (claimedFeatureAttrs lyrName flds ⟨fv, .lineString pts⟩)
        "Wkb" = false := by
      rw [hasKey_eq_false_iff, map_fst_claimed]
      simp [h2]
    rw [setKey_of_not_hasKey _ _ _ hwb]
    have hwt : hasKey (claimedFeatureAttrs lyrName flds ⟨fv, .lineString pts⟩
        ++ [("Wkb", exportToWkb (.lineString pts))]) "Wkt" = false := by
      rw [hasKey_eq_false_iff, List.map_append, map_fst_claimed]
      simp [h3]
    rw [setKey_of_not_hasKey _ _ _ hwt]
    have hjs : hasKey (claimedFeatureAttrs lyrName flds ⟨fv, .lineString pts⟩
        ++ [("Wkb", exportToWkb (.lineString pts))]
        ++ [("Wkt", exportToWkt (.lineString pts))]) "Json" = false := by
      rw [hasKey_eq_false_iff, List.map_append, List.map_append, map_fst_claimed]
      simp [h4]
    rw [setKey_of_not_hasKey _ _ _ hjs]
    simp

/-- Witness for C7 (amended): a one-field schema `["a"]` on a point and on
a line feature. -/
theorem read_shp_feature_attrs_amended_witness :
    lookupKey (addFeature Graph.empty "L" ["a"]
        ⟨[("a", Value.int 3)], .point (1, 2)⟩).nodeList (1, 2)
      = some [("a", Value.int 3), ("ShpName", Value.str "L")] ∧
    lookupKey (addFeature Graph.empty "L" ["a"]
        ⟨[("a", Value.int 3)], .lineString [(0, 0), (4, 5)]⟩).edgeList
        ((0, 0), (4, 5))
      = some [("a", Value.int 3), ("ShpName", Value.str "L"),
          ("Wkb", .wkbOf (.lineString [(0, 0), (4, 5)])),
          ("Wkt", .wktOf (.lineString [(0, 0), (4, 5)])),
          ("Json", .jsonOf (.lineString [(0, 0), (4, 5)]))] := by
  have h := read_shp_feature_attrs_amended Graph.empty "L" ["a"]
    [("a", Value.int 3)] (by decide) (by decide) (by decide) (by decide)
    (by decide)
  exact ⟨h.1 (1, 2), h.2 [(0, 0), (4, 5)]⟩

/-- Witness for C10: a concrete file-object argument. -/
theorem read_shp_nonstring_empty_graph_witness :
    (PathArg.fileObj 0).isStr = false ∧
    read_shp true [] (.fileObj 0) = ⟨.ok Graph.empty, []⟩ :=
  ⟨rfl, read_shp_nonstring_empty_graph [] (.fileObj 0) rfl⟩

end NxShp
